import Mathlib

/-!
# MRC-ClientLib: the go-redis example client (`mrc-goredis.go`)

A shallow embedding of the example program that connects to a Memorystore
Redis Cluster with IAM authentication and TLS.

* Go strings are Lean `String`s; the functions of package `path` work on the
  character list of the string.
* `log.Fatal` ends the process (exit status 1).  A function that may call it
  returns `Except String α`, the error being the logged message.
* The identity service, the file system, the PEM decoder and the Redis client
  library are external collaborators: they are parameters of the model.
* Global variables and the state of the identity service are threaded
  explicitly (`World`).
-/

namespace MRC

/-! ## Package `path` (Go standard library), as called by `retrieveToken` -/

/-- The inner loop of the `..` case of `path.Clean`, entered after `out.w--`
with `w` the new write index: `for out.w > dotdot && out.index(out.w) != '/' { out.w-- }`.
Returns the final value of `out.w`. -/
def backtrack (out : List Char) (dotdot : Nat) : Nat → Nat
  | 0 => 0
  | w + 1 =>
    if w + 1 > dotdot ∧ out.get? (w + 1) ≠ some '/' then backtrack out dotdot w else w + 1

/-- The main loop `for r < n { switch { ... } }` of `path.Clean`.  `path` is the
unread suffix `path[r:]`, `out` is the content of the output buffer (`out.w` is
its length) and `dotdot` is the index where `..` must stop. -/
def cleanLoop (rooted : Bool) (path out : List Char) (dotdot : Nat) : List Char :=
  match path with
  | [] => out
  | c :: t =>
    if c = '/' then
      -- empty path element
      cleanLoop rooted t out dotdot
    else if c = '.' ∧ (t = [] ∨ t.head? = some '/') then
      -- . element
      cleanLoop rooted t out dotdot
    else if c = '.' ∧ t.head? = some '.' ∧ (t.tail = [] ∨ t.tail.head? = some '/') then
      -- .. element: remove to last /
      if out.length > dotdot then
        -- can backtrack
        cleanLoop rooted t.tail (out.take (backtrack out dotdot (out.length - 1))) dotdot
      else if rooted = false then
        -- cannot backtrack, but not rooted, so append .. element
        let out1 := (if out.length > 0 then out ++ ['/'] else out) ++ ['.', '.']
        cleanLoop rooted t.tail out1 out1.length
      else
        cleanLoop rooted t.tail out dotdot
    else
      -- real path element: add slash if needed, then copy the element
      let out1 :=
        if (rooted = true ∧ out.length ≠ 1) ∨ (rooted = false ∧ out.length ≠ 0) then
          out ++ ['/']
        else out
      cleanLoop rooted (t.dropWhile (fun x => x ≠ '/'))
        (out1 ++ c :: t.takeWhile (fun x => x ≠ '/')) dotdot
termination_by path.length
decreasing_by
  all_goals simp_wf
  all_goals
    have hD := (List.dropWhile_sublist (l := t) (fun x => !decide (x = '/'))).length_le
    omega

/-- Go `path.Clean`: the shortest path name equivalent to `path` by purely
lexical processing. -/
def Clean (path : String) : String :=
  if path = "" then "."
  else
    let rooted : Bool := path.data.head? = some '/'
    let out :=
      if rooted then cleanLoop true path.data.tail ['/'] 1
      else cleanLoop false path.data [] 0
    -- Turn empty string into "."
    if out.length = 0 then "." else String.mk out

/-- The loop of `path.Join` that concatenates the elements into `buf`,
separating them by `/` and skipping leading empty elements. -/
def joinBuf : List Char → List String → List Char
  | buf, [] => buf
  | buf, e :: es =>
    if buf.length > 0 ∨ e ≠ "" then
      joinBuf ((if buf.length > 0 then buf ++ ['/'] else buf) ++ e.data) es
    else joinBuf buf es

/-- Go `path.Join`: joins the elements with slashes and cleans the result;
empty elements are ignored, and the result is empty when all are (`size`, a
byte count in Go, is only tested against zero). -/
def Join (elem : List String) : String :=
  if (elem.map String.length).sum = 0 then ""
  else Clean (String.mk (joinBuf [] elem))

/-! ## Durations (`time`, `ptypes`) -/

/-- Go `time.Duration`: a signed count of nanoseconds. -/
abbrev Duration := Int

/-- Go `time.Second`. -/
def Second : Duration := 1000000000

/-- Go `time.Hour`. -/
def Hour : Duration := 60 * (60 * Second)

/-- Protobuf `durationpb.Duration`. -/
structure DurationPb where
  Seconds : Int
  Nanos : Int
  deriving DecidableEq, Repr

/-- Package `ptypes`, `DurationProto`: `secs := nanos / 1e9; nanos -= secs * 1e9`
(Go integer division truncates toward zero). -/
def DurationProto (d : Duration) : DurationPb :=
  let nanos := d
  let secs := Int.tdiv nanos 1000000000
  { Seconds := secs, Nanos := nanos - secs * 1000000000 }

/-! ## The identity service and the Token Provider -/

/-- The request message `credentials.GenerateAccessTokenRequest`. -/
structure GenerateAccessTokenRequest where
  Name : String
  Delegates : List String := []
  Scope : List String
  Lifetime : DurationPb
  deriving DecidableEq, Repr

/-- The identity service as seen by `retrieveToken`: the outcome of
`gtransport.Dial` (given endpoint and scopes) and of the `GenerateAccessToken`
call, as transitions of the service state `σ`.  An error is its message. -/
structure IdentityService (σ : Type) where
  dial : σ → String → List String → Except String Unit × σ
  generateAccessToken : σ → GenerateAccessTokenRequest → Except String String × σ

/-- The state the program runs in: the two flag variables `*svcAccount` and
`*lifetime`, and the state of the identity service. -/
structure World (σ : Type) where
  svcAccount : String
  lifetime : Duration
  identity : σ

/-- The default of flag `-a`. -/
def defaultSvcAccount : String := "aoguo-test-sa@aoguo-test.iam.gserviceaccount.com"

/-- The default of flag `-d`. -/
def defaultLifetime : Duration := Hour

/-- The state at program start: `main` never calls `flag.Parse`, so the flag
variables hold their defaults. -/
def initialWorld {σ : Type} (identity : σ) : World σ :=
  { svcAccount := defaultSvcAccount, lifetime := defaultLifetime, identity := identity }

/-- The request literal built in `retrieveToken`. -/
def tokenRequest (svcAccount : String) (lifetime : Duration) : GenerateAccessTokenRequest :=
  { Name := Join ["projects/-/serviceAccounts", svcAccount]
    Scope := ["https://www.googleapis.com/auth/cloud-platform"]
    Lifetime := DurationProto lifetime }

/-- Go `retrieveToken`.  `Except.error msg` is `log.Fatal` with message `msg`:
the process ends and nothing is returned. -/
def retrieveToken {σ : Type} (svc : IdentityService σ) (w : World σ) :
    Except String String × World σ :=
  match svc.dial w.identity "iamcredentials.googleapis.com:443"
      ["https://www.googleapis.com/auth/cloud-platform"] with
  | (Except.error err, s1) =>
    (Except.error ("Failed to dial API: " ++ err), { w with identity := s1 })
  | (Except.ok (), s1) =>
    let req := tokenRequest w.svcAccount w.lifetime
    match svc.generateAccessToken s1 req with
    | (Except.error err, s2) =>
      (Except.error ("Failed to call GenerateAccessToken: " ++ err), { w with identity := s2 })
    | (Except.ok AccessToken, s2) => (Except.ok AccessToken, { w with identity := s2 })

/-- Go `retrieveTokenFunc`. -/
def retrieveTokenFunc {σ : Type} (svc : IdentityService σ) (w : World σ) :
    Except String (String × String) × World σ :=
  let username := "default"
  match retrieveToken svc w with
  | (Except.error msg, w1) => (Except.error msg, w1)
  | (Except.ok password, w1) => (Except.ok (username, password), w1)

/-- Calls `retrieveTokenFunc` `n` times in a row, stopping at the first one
that ends the process; returns the results in call order. -/
def invoke {σ : Type} (svc : IdentityService σ) :
    Nat → World σ → List (Except String (String × String)) × World σ
  | 0, w => ([], w)
  | n + 1, w =>
    match retrieveTokenFunc svc w with
    | (Except.error msg, w1) => ([Except.error msg], w1)
    | (Except.ok cred, w1) =>
      let r := invoke svc n w1
      (Except.ok cred :: r.1, r.2)

/-- State of the scripted identity-service stub: the tokens it will still
answer with, and the requests it has received (oldest first). -/
structure Script where
  answers : List String
  received : List GenerateAccessTokenRequest
  deriving DecidableEq, Repr

/-- A stub identity service: dialing succeeds; the i-th request is recorded
and answered with the i-th scripted token; it fails once the script is used up. -/
def scripted : IdentityService Script where
  dial := fun s _ _ => (Except.ok (), s)
  generateAccessToken := fun s req =>
    match s.answers with
    | [] => (Except.error "no answer left", { s with received := s.received ++ [req] })
    | T :: rest => (Except.ok T, { answers := rest, received := s.received ++ [req] })

/-! ## Trust bundle, pool configuration and the Redis client library -/

/-- Go `[]byte`. -/
abbrev Bytes := List Nat

/-- An X.509 certificate, identified by its encoded bytes. -/
structure Certificate where
  raw : Bytes
  deriving DecidableEq, Repr

/-- Go `x509.CertPool`: the certificates of the pool, in the order added. -/
abbrev CertPool := List Certificate

/-- Go `x509.NewCertPool`. -/
def NewCertPool : CertPool := []

/-- Go `(*CertPool).addCertFunc`: a certificate the pool already holds (same
encoded bytes) is not added twice. -/
def addCert (pool : CertPool) (cert : Certificate) : CertPool :=
  if cert ∈ pool then pool else pool ++ [cert]

/-- Go `(*CertPool).AppendCertsFromPEM`: adds the certificates decoded from
`pemCerts`, one after the other, and reports whether any was decoded.  The
PEM/X.509 decoder `decode` is external. -/
def AppendCertsFromPEM (decode : Bytes → List Certificate) (pool : CertPool) (pemCerts : Bytes) :
    CertPool × Bool :=
  ((decode pemCerts).foldl addCert pool, !(decode pemCerts).isEmpty)

/-- The fields of Go `tls.Config` relevant here; each defaults to its zero value. -/
structure TLSConfig where
  RootCAs : Option CertPool := none
  ServerName : String := ""
  InsecureSkipVerify : Bool := false
  MinVersion : Nat := 0
  MaxVersion : Nat := 0
  deriving DecidableEq, Repr

/-- The fields of `redis.Options` (go-redis v9); each defaults to its Go zero
value.  Of the hooks `Dialer`, `OnConnect` and `Limiter` only presence is
represented: `none` is the nil hook. -/
structure Options (σ : Type) where
  Network : String := ""
  Addr : String := ""
  ClientName : String := ""
  Dialer : Option Unit := none
  OnConnect : Option Unit := none
  Username : String := ""
  Password : String := ""
  CredentialsProvider : Option (World σ → Except String (String × String) × World σ) := none
  DB : Int := 0
  MaxRetries : Int := 0
  MinRetryBackoff : Duration := 0
  MaxRetryBackoff : Duration := 0
  DialTimeout : Duration := 0
  ReadTimeout : Duration := 0
  WriteTimeout : Duration := 0
  ContextTimeoutEnabled : Bool := false
  PoolFIFO : Bool := false
  PoolSize : Int := 0
  PoolTimeout : Duration := 0
  MinIdleConns : Int := 0
  MaxIdleConns : Int := 0
  ConnMaxIdleTime : Duration := 0
  ConnMaxLifetime : Duration := 0
  TLSConfig : Option TLSConfig := none
  Limiter : Option Unit := none

/-- How a call of a Redis command ends. -/
inductive CmdResult (α : Type) where
  /-- The call returned with a nil error. -/
  | ok (val : α)
  /-- The call returned a non-nil error (its message). -/
  | err (e : String)
  /-- The process ended inside the call: the library ran the credentials
  callback and that called `log.Fatal` (its message). -/
  | exited (msg : String)
  deriving DecidableEq, Repr

/-- The go-redis client library with the server behind it, as seen by `main`.
`ρ` is the state of the client handle and the server.  The library may run the
credentials callback of the options, so its operations act on the `World`. -/
structure RedisLib (σ ρ : Type) where
  NewClient : Options σ → World σ → ρ × World σ
  Set : ρ → String → String → Duration → World σ → CmdResult Unit × ρ × World σ
  Get : ρ → String → World σ → CmdResult String × ρ × World σ

/-- The external collaborators of the program. -/
structure Env (σ ρ : Type) where
  /-- `ioutil.ReadFile`: the content of the file or the error message. -/
  ReadFile : String → Except String Bytes
  /-- The PEM/X.509 decoder behind `AppendCertsFromPEM`. -/
  decode : Bytes → List Certificate
  identity : IdentityService σ
  redis : RedisLib σ ρ

/-- How the process ends: `main` returns (status 0), or `log.Fatal` logs the
message and exits with status 1. -/
inductive Exit where
  | ok
  | fatal (msg : String)
  deriving DecidableEq, Repr

/-- What a run of `main` does: the strings it writes to standard output, how
it ends, and the state it leaves: the `World` and the client handle (`none`
when no client was constructed). -/
structure Run (σ ρ : Type) where
  stdout : List String
  exit : Exit
  world : World σ
  client : Option ρ

/-- The `redis.Options` literal of `main`. -/
def poolOptions {σ : Type} (svc : IdentityService σ) (caCertPool : CertPool) : Options σ :=
  { Addr := "10.142.0.12:6379"
    -- PoolSize applies per cluster node and not for the whole cluster.
    PoolSize := 10
    ConnMaxIdleTime := 60 * Second
    MinIdleConns := 1
    CredentialsProvider := some (retrieveTokenFunc svc)
    TLSConfig := some { RootCAs := some caCertPool } }

/-- Go `main`. -/
def main {σ ρ : Type} (env : Env σ ρ) (w : World σ) : Run σ ρ :=
  -- Load CA cert
  let caFilePath := "server-ca.pem"
  match env.ReadFile caFilePath with
  | Except.error err => { stdout := [], exit := Exit.fatal err, world := w, client := none }
  | Except.ok caCert =>
    let caCertPool := (AppendCertsFromPEM env.decode NewCertPool caCert).1
    -- Setup Redis Connection pool
    match env.redis.NewClient (poolOptions env.identity caCertPool) w with
    | (client, w1) =>
      match env.redis.Set client "key" "value" 0 w1 with
      | (CmdResult.exited msg, c2, w2) =>
        { stdout := [], exit := Exit.fatal msg, world := w2, client := some c2 }
      | (CmdResult.err err, c2, w2) =>
        { stdout := [], exit := Exit.fatal err, world := w2, client := some c2 }
      | (CmdResult.ok (), c2, w2) =>
        match env.redis.Get c2 "key" w2 with
        | (CmdResult.exited msg, c3, w3) =>
          { stdout := [], exit := Exit.fatal msg, world := w3, client := some c3 }
        | (CmdResult.err err, c3, w3) =>
          { stdout := [], exit := Exit.fatal err, world := w3, client := some c3 }
        | (CmdResult.ok val, c3, w3) =>
          { stdout := ["Got the value for key: key, which is " ++ val ++ " \n"],
            exit := Exit.ok, world := w3, client := some c3 }

/-! ## Test doubles of the Redis client library -/

/-- The fake server: a key-value map. -/
abbrev Store := String → Option String

/-- A fake of the client library over a key-value map with initial contents
`init`: `SET` stores the value (an expiration of 0 means no expiry, and the
fake has no clock), `GET` returns the stored value or the error `redis: nil`;
connecting and authenticating always succeed and the credentials callback is
never run. -/
def fakeRedis (σ : Type) (init : Store) : RedisLib σ Store where
  NewClient := fun _ w => (init, w)
  Set := fun st key value _ w =>
    (CmdResult.ok (), (fun k => if k = key then some value else st k), w)
  Get := fun st key w =>
    match st key with
    | some v => (CmdResult.ok v, st, w)
    | none => (CmdResult.err "redis: nil", st, w)

/-- The environment whose Redis library is the fake over `init`. -/
def fakeEnv {σ : Type} (ReadFile : String → Except String Bytes)
    (decode : Bytes → List Certificate) (identity : IdentityService σ) (init : Store) :
    Env σ Store where
  ReadFile := ReadFile
  decode := decode
  identity := identity
  redis := fakeRedis σ init

/-- A call received by the client library. -/
inductive Call (σ : Type) where
  | NewClient (opts : Options σ)
  | Set (key value : String) (expiration : Duration)
  | Get (key : String)

/-- A library that behaves as `lib` and keeps, next to the state of `lib`, the
list of the calls it has received with their arguments, oldest first. -/
def recording {σ ρ : Type} (lib : RedisLib σ ρ) : RedisLib σ (ρ × List (Call σ)) where
  NewClient := fun opts w =>
    (((lib.NewClient opts w).1, [Call.NewClient opts]), (lib.NewClient opts w).2)
  Set := fun c key value expiration w =>
    ((lib.Set c.1 key value expiration w).1,
      ((lib.Set c.1 key value expiration w).2.1, c.2 ++ [Call.Set key value expiration]),
      (lib.Set c.1 key value expiration w).2.2)
  Get := fun c key w =>
    ((lib.Get c.1 key w).1, ((lib.Get c.1 key w).2.1, c.2 ++ [Call.Get key]),
      (lib.Get c.1 key w).2.2)

/-- The environment `env` with its Redis library recording the calls. -/
def recordingEnv {σ ρ : Type} (env : Env σ ρ) : Env σ (ρ × List (Call σ)) where
  ReadFile := env.ReadFile
  decode := env.decode
  identity := env.identity
  redis := recording env.redis

/-- Whether a client configured with `opts` accepts a server whose certificate
is issued by `serverCA`: verification is switched off, or the root pool holds
the issuer.  Without a TLS configuration, or with a nil root pool (the roots of
the host, which do not hold a private issuer), the handshake fails. -/
def accepts {σ : Type} (serverCA : Certificate) (opts : Options σ) : Bool :=
  match opts.TLSConfig with
  | none => false
  | some tls =>
    tls.InsecureSkipVerify ||
      (match tls.RootCAs with
       | none => false
       | some pool => pool.contains serverCA)

/-- A fake of the client library in front of a TLS server whose certificate is
issued by `serverCA`: the state is whether the handshake succeeds, and the
key-value map.  When the handshake fails every command returns the
certificate-validation error and the map is left alone. -/
def tlsRedis (σ : Type) (serverCA : Certificate) (init : Store) : RedisLib σ (Bool × Store) where
  NewClient := fun opts w => ((accepts serverCA opts, init), w)
  Set := fun c key value _ w =>
    if c.1 then (CmdResult.ok (), (c.1, fun k => if k = key then some value else c.2 k), w)
    else (CmdResult.err "x509: certificate signed by unknown authority", c, w)
  Get := fun c key w =>
    if c.1 then
      match c.2 key with
      | some v => (CmdResult.ok v, c, w)
      | none => (CmdResult.err "redis: nil", c, w)
    else (CmdResult.err "x509: certificate signed by unknown authority", c, w)

/-! ## The external steps of a run, replayed outside `main` -/

/-- The root pool `main` builds from the bytes of the trust bundle. -/
def caCertPoolOf (decode : Bytes → List Certificate) (caCert : Bytes) : CertPool :=
  (AppendCertsFromPEM decode NewCertPool caCert).1

/-- The client handle and state right after `redis.NewClient`, when the trust
bundle read `caCert`. -/
def newClientStep {σ ρ : Type} (env : Env σ ρ) (w : World σ) (caCert : Bytes) :
    ρ × World σ :=
  env.redis.NewClient (poolOptions env.identity (caCertPoolOf env.decode caCert)) w

/-- The outcome of `SET key value` with expiration 0 on the new client. -/
def setStep {σ ρ : Type} (env : Env σ ρ) (w : World σ) (caCert : Bytes) :
    CmdResult Unit × ρ × World σ :=
  env.redis.Set (newClientStep env w caCert).1 "key" "value" 0 (newClientStep env w caCert).2

/-- The outcome of `GET key` issued after the `SET`. -/
def getStep {σ ρ : Type} (env : Env σ ρ) (w : World σ) (caCert : Bytes) :
    CmdResult String × ρ × World σ :=
  env.redis.Get (setStep env w caCert).2.1 "key" (setStep env w caCert).2.2

/-- Whether a command returned with a nil error. -/
def CmdResult.succeeded {α : Type} : CmdResult α → Bool
  | CmdResult.ok _ => true
  | CmdResult.err _ => false
  | CmdResult.exited _ => false

/-- Whether the read of the trust bundle succeeds. -/
def readOk {σ ρ : Type} (env : Env σ ρ) : Bool :=
  match env.ReadFile "server-ca.pem" with
  | Except.ok _ => true
  | Except.error _ => false

/-- The bytes of the trust bundle (empty when the read fails). -/
def caCertOf {σ ρ : Type} (env : Env σ ρ) : Bytes :=
  match env.ReadFile "server-ca.pem" with
  | Except.ok caCert => caCert
  | Except.error _ => []

/-- Whether a run ends in `log.Fatal`. -/
def Run.isFatal {σ ρ : Type} (r : Run σ ρ) : Bool :=
  match r.exit with
  | Exit.ok => false
  | Exit.fatal _ => true

/-- The calls the recording library received during a run, oldest first; none
when no client was constructed. -/
def Run.received {σ ρ : Type} (r : Run σ (ρ × List (Call σ))) : List (Call σ) :=
  match r.client with
  | none => []
  | some c => c.2

/-- The library verifies the server certificate against the configured root
pool: on a client constructed with an empty root pool and verification not
switched off, the first command does not succeed. -/
def VerifiesServer {σ ρ : Type} (lib : RedisLib σ ρ) : Prop :=
  ∀ (opts : Options σ) (w : World σ) (tls : TLSConfig),
    opts.TLSConfig = some tls → tls.RootCAs = some [] → tls.InsecureSkipVerify = false →
    ∀ (key value : String) (expiration : Duration),
      (lib.Set (lib.NewClient opts w).1 key value expiration
        (lib.NewClient opts w).2).1.succeeded = false

/-- A file system holding a trust bundle of three bytes at `server-ca.pem`. -/
def bundleFile (path : String) : Except String Bytes :=
  if path = "server-ca.pem" then Except.ok [45, 45, 45]
  else Except.error "open: no such file or directory"

/-- An environment for examples: the trust bundle is readable and decodes to
one certificate, the identity service is the scripted stub, and Redis is the
fake over an empty map. -/
def exampleEnv : Env Script Store :=
  fakeEnv bundleFile (fun b => [{ raw := b }]) scripted (fun _ => none)

/-- An environment with a TLS server whose issuer is the certificate `[7]`:
the trust bundle is readable and `decode` is what the decoder finds in it. -/
def tlsEnv (decode : Bytes → List Certificate) : Env Script (Bool × Store) where
  ReadFile := bundleFile
  decode := decode
  identity := scripted
  redis := tlsRedis Script { raw := [7] } (fun _ => none)

/-- The trust bundle is readable, but holds no certificate that the decoder
can parse. -/
def unparseableEnv : Env Script (Bool × Store) :=
  tlsEnv (fun _ => [])

/-- The trust bundle holds the issuer of the server certificate, twice. -/
def trustedEnv : Env Script (Bool × Store) :=
  tlsEnv (fun _ => [{ raw := [7] }, { raw := [7] }])

/-- The start state for examples: default flags, a stub scripted with one token. -/
def exampleWorld : World Script :=
  initialWorld { answers := ["ya29.token"], received := [] }

/-! ## The Token Provider -/

/-- C1: whenever dialing succeeds and the identity service answers the
`GenerateAccessToken` request with token `T`, `retrieveTokenFunc` returns exactly
the pair `("default", T)`, for every service account `a` and lifetime `d`. -/
theorem retrieveTokenFunc_default_token {σ : Type} (svc : IdentityService σ)
    (a : String) (d : Duration) (s s1 s2 : σ) (T : String)
    (hdial : svc.dial s "iamcredentials.googleapis.com:443"
      ["https://www.googleapis.com/auth/cloud-platform"] = (Except.ok (), s1))
    (hgen : svc.generateAccessToken s1 (tokenRequest a d) = (Except.ok T, s2)) :
    retrieveTokenFunc svc { svcAccount := a, lifetime := d, identity := s }
      = (Except.ok ("default", T), { svcAccount := a, lifetime := d, identity := s2 }) := by
  simp [retrieveTokenFunc, retrieveToken, hdial, hgen]

/-- C1 at a concrete stub: the scripted service answering `"ya29.token"`. -/
theorem retrieveTokenFunc_default_token_witness :
    retrieveTokenFunc scripted
        { svcAccount := "sa@example.com", lifetime := Hour,
          identity := { answers := ["ya29.token"], received := [] } }
      = (Except.ok ("default", "ya29.token"),
          { svcAccount := "sa@example.com", lifetime := Hour,
            identity := { answers := [],
                          received := [tokenRequest "sa@example.com" Hour] } }) :=
  retrieveTokenFunc_default_token scripted "sa@example.com" Hour
    { answers := ["ya29.token"], received := [] }
    { answers := ["ya29.token"], received := [] }
    { answers := [], received := [tokenRequest "sa@example.com" Hour] } "ya29.token" rfl rfl

/-- C2: if dialing the identity service fails, or the `GenerateAccessToken` call
returns an error, then `retrieveToken` and `retrieveTokenFunc` both end in
`log.Fatal` and `retrieveTokenFunc` returns no credential pair at all. -/
theorem retrieveToken_failure_is_fatal {σ : Type} (svc : IdentityService σ) (w : World σ)
    (h : (∃ e s1, svc.dial w.identity "iamcredentials.googleapis.com:443"
            ["https://www.googleapis.com/auth/cloud-platform"] = (Except.error e, s1)) ∨
         (∃ s1 e s2, svc.dial w.identity "iamcredentials.googleapis.com:443"
            ["https://www.googleapis.com/auth/cloud-platform"] = (Except.ok (), s1) ∧
            svc.generateAccessToken s1 (tokenRequest w.svcAccount w.lifetime)
              = (Except.error e, s2))) :
    (∃ msg, (retrieveToken svc w).1 = Except.error msg ∧
        (retrieveTokenFunc svc w).1 = Except.error msg) ∧
      ∀ cred, (retrieveTokenFunc svc w).1 ≠ Except.ok cred := by
  rcases h with ⟨e, s1, hd⟩ | ⟨s1, e, s2, hd, hg⟩
  · refine ⟨⟨"Failed to dial API: " ++ e, ?_, ?_⟩, ?_⟩ <;>
      simp [retrieveTokenFunc, retrieveToken, hd]
  · refine ⟨⟨"Failed to call GenerateAccessToken: " ++ e, ?_, ?_⟩, ?_⟩ <;>
      simp [retrieveTokenFunc, retrieveToken, hd, hg]

/-- One invocation against the scripted stub is answered by the head of the
script and recorded once. -/
theorem retrieveTokenFunc_scripted (a : String) (d : Duration) (T : String)
    (rest : List String) (rcv : List GenerateAccessTokenRequest) :
    retrieveTokenFunc scripted
        { svcAccount := a, lifetime := d, identity := { answers := T :: rest, received := rcv } }
      = (Except.ok ("default", T),
          { svcAccount := a, lifetime := d,
            identity := { answers := rest, received := rcv ++ [tokenRequest a d] } }) := by
  simp [retrieveTokenFunc, retrieveToken, scripted]

/-- C7: the Token Provider never caches.  Against a stub scripted with the
tokens `Ts` (followed by any `rest`), `Ts.length` invocations in a row return
`("default", T_i)` for the i-th token in order, the stub receives exactly
`Ts.length` new requests, one per invocation, and the flag variables are left
as they were. -/
theorem retrieveTokenFunc_never_caches (a : String) (d : Duration)
    (Ts rest : List String) (rcv : List GenerateAccessTokenRequest) :
    invoke scripted Ts.length
        { svcAccount := a, lifetime := d, identity := { answers := Ts ++ rest, received := rcv } }
      = (Ts.map (fun T => Except.ok ("default", T)),
          { svcAccount := a, lifetime := d,
            identity := { answers := rest,
                          received := rcv ++ List.replicate Ts.length (tokenRequest a d) } }) := by
  induction Ts generalizing rcv with
  | nil => simp [invoke]
  | cons T Ts ih =>
    simp only [List.length_cons, List.cons_append, invoke, retrieveTokenFunc_scripted, ih,
      List.map_cons, List.replicate_succ, List.append_assoc, List.singleton_append,
      List.nil_append]

/-! ## The token-exchange request -/

/-- The loop of `Clean` at the end of the input returns the buffer. -/
theorem cleanLoop_nil (rooted : Bool) (out : List Char) (dotdot : Nat) :
    cleanLoop rooted [] out dotdot = out := by
  rw [cleanLoop]

/-- The loop of `Clean` skips a slash. -/
theorem cleanLoop_slash (rooted : Bool) (t out : List Char) (dotdot : Nat) :
    cleanLoop rooted ('/' :: t) out dotdot = cleanLoop rooted t out dotdot := by
  rw [cleanLoop]; simp

/-- The loop of `Clean` on an unrooted path copies an element that starts
with neither a slash nor a dot. -/
theorem cleanLoop_elem (c : Char) (t out : List Char) (dotdot : Nat)
    (hc : c ≠ '/') (hd : c ≠ '.') :
    cleanLoop false (c :: t) out dotdot
      = cleanLoop false (t.dropWhile (fun x => x ≠ '/'))
          ((if out.length ≠ 0 then out ++ ['/'] else out)
            ++ c :: t.takeWhile (fun x => x ≠ '/'))
          dotdot := by
  rw [cleanLoop]; simp [hc, hd]

/-- The loop of `Clean` appends a last element that is non-empty, free of
slashes and neither `.` nor `..` after a slash. -/
theorem cleanLoop_plain (a out : List Char) (dotdot : Nat)
    (hne : a ≠ []) (hs : '/' ∉ a) (h1 : a ≠ ['.']) (h2 : a ≠ ['.', '.'])
    (hout : out ≠ []) :
    cleanLoop false a out dotdot = out ++ '/' :: a := by
  cases a with
  | nil => exact absurd rfl hne
  | cons c t =>
    have hc : c ≠ '/' := fun h => hs (by simp [h])
    have ht : '/' ∉ t := fun h => hs (List.mem_cons_of_mem _ h)
    have htake : t.takeWhile (fun x => x ≠ '/') = t := by
      rw [List.takeWhile_eq_self_iff]
      intro x hx
      simp only [ne_eq, decide_not, Bool.not_eq_true', decide_eq_false_iff_not]
      rintro rfl
      exact ht hx
    have hdrop : t.dropWhile (fun x => x ≠ '/') = [] := by
      rw [List.dropWhile_eq_nil_iff]
      intro x hx
      simp only [ne_eq, decide_not, Bool.not_eq_true', decide_eq_false_iff_not]
      rintro rfl
      exact ht hx
    have c2 : ¬ (c = '.' ∧ (t = [] ∨ t.head? = some '/')) := by
      rintro ⟨rfl, h | h⟩
      · exact h1 (by rw [h])
      · exact ht (List.mem_of_mem_head? h)
    have c3 : ¬ (c = '.' ∧ t.head? = some '.' ∧
        (t.tail = [] ∨ t.tail.head? = some '/')) := by
      rintro ⟨rfl, h, h3⟩
      cases t with
      | nil => simp at h
      | cons e t2 =>
        simp at h
        subst h
        rcases h3 with h3 | h3
        · simp at h3
          exact h2 (by rw [h3])
        · exact ht (List.mem_cons_of_mem _ (List.mem_of_mem_head? h3))
    have hlen : out.length ≠ 0 := by simpa using hout
    rw [cleanLoop]
    simp only [hc, c2, c3, if_false, htake, hdrop, cleanLoop_nil]
    simp [hlen]

/-- The loop of `Clean` copies the service-accounts prefix followed by a plain
element unchanged. -/
theorem cleanLoop_serviceAccounts (a : List Char)
    (hne : a ≠ []) (hs : '/' ∉ a) (h1 : a ≠ ['.']) (h2 : a ≠ ['.', '.']) :
    cleanLoop false (("projects/-/serviceAccounts/" : String).data ++ a) [] 0
      = ("projects/-/serviceAccounts/" : String).data ++ a := by
  have hd : ("projects/-/serviceAccounts/" : String).data
      = ['p', 'r', 'o', 'j', 'e', 'c', 't', 's', '/', '-', '/', 's', 'e', 'r', 'v', 'i', 'c', 'e',
        'A', 'c', 'c', 'o', 'u', 'n', 't', 's', '/'] := rfl
  rw [hd]
  simp only [List.cons_append, List.nil_append]
  rw [cleanLoop_elem 'p' _ _ _ (by decide) (by decide)]
  simp [List.takeWhile_cons, List.dropWhile_cons]
  rw [cleanLoop_slash, cleanLoop_elem '-' _ _ _ (by decide) (by decide)]
  simp [List.takeWhile_cons, List.dropWhile_cons]
  rw [cleanLoop_slash, cleanLoop_elem 's' _ _ _ (by decide) (by decide)]
  simp [List.takeWhile_cons, List.dropWhile_cons]
  rw [cleanLoop_slash, cleanLoop_plain a _ _ hne hs h1 h2 (by simp)]
  simp

/-- `path.Join` of the service-accounts directory and a plain element is the
directory, a slash, and the element unchanged. -/
theorem Join_serviceAccounts (a : String) (hne : a ≠ "") (hs : '/' ∉ a.data)
    (h1 : a ≠ ".") (h2 : a ≠ "..") :
    Join ["projects/-/serviceAccounts", a] = "projects/-/serviceAccounts/" ++ a := by
  have hne1 : a.data ≠ [] := fun h => hne (String.ext h)
  have h11 : a.data ≠ ['.'] := fun h => h1 (String.ext h)
  have h21 : a.data ≠ ['.', '.'] := fun h => h2 (String.ext h)
  have h26 : String.length "projects/-/serviceAccounts" = 26 := rfl
  have hsum : ¬ (List.map String.length ["projects/-/serviceAccounts", a]).sum = 0 := by
    simp only [List.map_cons, List.map_nil, List.sum_cons, List.sum_nil, h26]
    omega
  have hp : ("projects/-/serviceAccounts" : String) ≠ "" := by decide
  have hdir : ("projects/-/serviceAccounts" : String).data ++ ['/']
      = ("projects/-/serviceAccounts/" : String).data := rfl
  have hlen : 0 < ("projects/-/serviceAccounts" : String).data.length := by decide
  have hbuf : joinBuf [] ["projects/-/serviceAccounts", a]
      = ("projects/-/serviceAccounts/" : String).data ++ a.data := by
    simp only [joinBuf, List.length_nil, gt_iff_lt, lt_self_iff_false, ne_eq, hp,
      not_false_eq_true, or_true, if_true, if_false, List.nil_append, hlen, true_or, hdir]
  have hhead : (("projects/-/serviceAccounts/" : String).data ++ a.data).head? = some 'p' := rfl
  have hpath : String.mk (("projects/-/serviceAccounts/" : String).data ++ a.data) ≠ "" := by
    intro h
    have h0 := congrArg (fun x => x.data.head?) h
    simp only [hhead] at h0
    exact absurd h0 (by decide)
  have hloop := cleanLoop_serviceAccounts a.data hne1 hs h11 h21
  have hout : ¬ (("projects/-/serviceAccounts/" : String).data ++ a.data).length = 0 := by
    intro h
    rw [List.length_eq_zero] at h
    rw [h] at hhead
    exact absurd hhead (by decide)
  unfold Join
  rw [if_neg hsum, hbuf]
  unfold Clean
  rw [if_neg hpath]
  simp only [hhead, hloop, if_neg hout]
  simp only [Option.some.injEq, show ¬ ('p' = '/') by decide, decide_False, Bool.false_eq_true,
    if_false, hloop, if_neg hout]
  rfl

/-- Go integer division and the remainder taken in `DurationProto` recompose
the duration. -/
theorem DurationProto_total (d : Duration) :
    (DurationProto d).Seconds * 1000000000 + (DurationProto d).Nanos = d := by
  simp only [DurationProto]
  omega

/-- C10: for every service account `a` that is non-empty, has no `/` and is
neither `.` nor `..`, and every lifetime `d`, the request built by
`retrieveToken` has as `Name` the service-accounts resource prefix, a slash and
`a` unchanged, as `Scope` the
single cloud-platform scope and `Lifetime` the protobuf form of `d`, whose
seconds and nanoseconds add up to `d`; it is the request the service receives.
With no flags given, `a` is the placeholder account and `d` is one hour, sent
as 3600 seconds. -/
theorem tokenRequest_names_identity_scope_lifetime (a : String) (d : Duration)
    (hne : a ≠ "") (hs : '/' ∉ a.data) (h1 : a ≠ ".") (h2 : a ≠ "..") :
    tokenRequest a d
        = { Name := "projects/-/serviceAccounts/" ++ a
            Delegates := []
            Scope := ["https://www.googleapis.com/auth/cloud-platform"]
            Lifetime := DurationProto d } ∧
      (DurationProto d).Seconds * 1000000000 + (DurationProto d).Nanos = d ∧
      (∀ Ts rcv, (retrieveToken scripted
            { svcAccount := a, lifetime := d,
              identity := { answers := Ts, received := rcv } }).2.identity.received
          = rcv ++ [tokenRequest a d]) ∧
      (initialWorld ()).svcAccount = "aoguo-test-sa@aoguo-test.iam.gserviceaccount.com" ∧
      (initialWorld ()).lifetime = 3600 * Second ∧
      DurationProto (initialWorld ()).lifetime = { Seconds := 3600, Nanos := 0 } := by
  refine ⟨?_, DurationProto_total d, ?_, rfl, rfl, rfl⟩
  · simp only [tokenRequest, Join_serviceAccounts a hne hs h1 h2]
  · intro Ts rcv
    cases Ts <;> simp [retrieveToken, scripted]

/-- C10 at the placeholder account and one hour. -/
theorem tokenRequest_names_identity_scope_lifetime_witness :
    tokenRequest defaultSvcAccount Hour
        = { Name := "projects/-/serviceAccounts/" ++ defaultSvcAccount
            Delegates := []
            Scope := ["https://www.googleapis.com/auth/cloud-platform"]
            Lifetime := DurationProto Hour } :=
  (tokenRequest_names_identity_scope_lifetime defaultSvcAccount Hour
    (by decide) (by decide) (by decide) (by decide)).1

/-- C2 at a stub whose `GenerateAccessToken` call fails. -/
theorem retrieveToken_failure_is_fatal_witness :
    (∃ msg, (retrieveToken scripted
          { svcAccount := "sa@example.com", lifetime := Hour,
            identity := { answers := [], received := [] } }).1 = Except.error msg ∧
        (retrieveTokenFunc scripted
          { svcAccount := "sa@example.com", lifetime := Hour,
            identity := { answers := [], received := [] } }).1 = Except.error msg) ∧
      ∀ cred, (retrieveTokenFunc scripted
          { svcAccount := "sa@example.com", lifetime := Hour,
            identity := { answers := [], received := [] } }).1 ≠ Except.ok cred :=
  retrieveToken_failure_is_fatal scripted
    { svcAccount := "sa@example.com", lifetime := Hour,
      identity := { answers := [], received := [] } }
    (Or.inr ⟨{ answers := [], received := [] }, "no answer left",
      { answers := [], received := [tokenRequest "sa@example.com" Hour] }, rfl, rfl⟩)

/-! ## The driver -/

/-- The run when the read of the trust bundle fails. -/
theorem main_read_error {σ ρ : Type} (env : Env σ ρ) (w : World σ) (err : String)
    (h : env.ReadFile "server-ca.pem" = Except.error err) :
    main env w = { stdout := [], exit := Exit.fatal err, world := w, client := none } := by
  simp [main, h]

/-- The run when `SET` returns an error. -/
theorem main_set_err {σ ρ : Type} (env : Env σ ρ) (w : World σ) (caCert : Bytes)
    (e : String) (c2 : ρ) (w2 : World σ)
    (h : env.ReadFile "server-ca.pem" = Except.ok caCert)
    (hs : setStep env w caCert = (CmdResult.err e, c2, w2)) :
    main env w = { stdout := [], exit := Exit.fatal e, world := w2, client := some c2 } := by
  simp only [setStep, newClientStep] at hs
  simp only [main, h, caCertPoolOf] at hs ⊢
  rw [hs]

/-- The run when the process ends inside `SET`. -/
theorem main_set_exited {σ ρ : Type} (env : Env σ ρ) (w : World σ) (caCert : Bytes)
    (e : String) (c2 : ρ) (w2 : World σ)
    (h : env.ReadFile "server-ca.pem" = Except.ok caCert)
    (hs : setStep env w caCert = (CmdResult.exited e, c2, w2)) :
    main env w = { stdout := [], exit := Exit.fatal e, world := w2, client := some c2 } := by
  simp only [setStep, newClientStep] at hs
  simp only [main, h, caCertPoolOf] at hs ⊢
  rw [hs]

/-- The run when `SET` succeeds and `GET` returns an error. -/
theorem main_get_err {σ ρ : Type} (env : Env σ ρ) (w : World σ) (caCert : Bytes)
    (e : String) (c3 : ρ) (w3 : World σ)
    (h : env.ReadFile "server-ca.pem" = Except.ok caCert)
    (hs : (setStep env w caCert).1 = CmdResult.ok ())
    (hg : getStep env w caCert = (CmdResult.err e, c3, w3)) :
    main env w
      = { stdout := [],
          exit := Exit.fatal e, world := w3, client := some c3 } := by
  simp only [getStep] at hg
  rcases hset : setStep env w caCert with ⟨r, c2, w2⟩
  rw [hset] at hs hg
  simp only at hs hg
  subst hs
  simp only [setStep, newClientStep] at hset
  simp only [main, h, caCertPoolOf] at hset ⊢
  rw [hset]
  simp only [hg]

/-- The run when `SET` succeeds and the process ends inside `GET`. -/
theorem main_get_exited {σ ρ : Type} (env : Env σ ρ) (w : World σ) (caCert : Bytes)
    (e : String) (c3 : ρ) (w3 : World σ)
    (h : env.ReadFile "server-ca.pem" = Except.ok caCert)
    (hs : (setStep env w caCert).1 = CmdResult.ok ())
    (hg : getStep env w caCert = (CmdResult.exited e, c3, w3)) :
    main env w
      = { stdout := [],
          exit := Exit.fatal e, world := w3, client := some c3 } := by
  simp only [getStep] at hg
  rcases hset : setStep env w caCert with ⟨r, c2, w2⟩
  rw [hset] at hs hg
  simp only at hs hg
  subst hs
  simp only [setStep, newClientStep] at hset
  simp only [main, h, caCertPoolOf] at hset ⊢
  rw [hset]
  simp only [hg]

/-- The run when the read, `SET` and `GET` all succeed. -/
theorem main_get_ok {σ ρ : Type} (env : Env σ ρ) (w : World σ) (caCert : Bytes)
    (val : String) (c3 : ρ) (w3 : World σ)
    (h : env.ReadFile "server-ca.pem" = Except.ok caCert)
    (hs : (setStep env w caCert).1 = CmdResult.ok ())
    (hg : getStep env w caCert = (CmdResult.ok val, c3, w3)) :
    main env w
      = { stdout := ["Got the value for key: key, which is " ++ val ++ " \n"],
          exit := Exit.ok, world := w3, client := some c3 } := by
  simp only [getStep] at hg
  rcases hset : setStep env w caCert with ⟨r, c2, w2⟩
  rw [hset] at hs hg
  simp only at hs hg
  subst hs
  simp only [setStep, newClientStep] at hset
  simp only [main, h, caCertPoolOf] at hset ⊢
  rw [hset]
  simp only [hg]

/-- The `SET` step seen through the recording library: the same outcome and
state, and the library has received `NewClient` and `SET`. -/
theorem setStep_recording {σ ρ : Type} (env : Env σ ρ) (w : World σ) (caCert : Bytes) :
    setStep (recordingEnv env) w caCert
      = ((setStep env w caCert).1,
          ((setStep env w caCert).2.1,
            [Call.NewClient (poolOptions env.identity (caCertPoolOf env.decode caCert)),
             Call.Set "key" "value" 0]),
          (setStep env w caCert).2.2) :=
  rfl

/-- The `GET` step seen through the recording library. -/
theorem getStep_recording {σ ρ : Type} (env : Env σ ρ) (w : World σ) (caCert : Bytes) :
    getStep (recordingEnv env) w caCert
      = ((getStep env w caCert).1,
          ((getStep env w caCert).2.1,
            [Call.NewClient (poolOptions env.identity (caCertPoolOf env.decode caCert)),
             Call.Set "key" "value" 0, Call.Get "key"]),
          (getStep env w caCert).2.2) :=
  rfl

/-- The whole run against the recording library, by the outcomes of the
external steps. -/
theorem main_recorded {σ ρ : Type} (env : Env σ ρ) (w : World σ) :
    main (recordingEnv env) w
      = match env.ReadFile "server-ca.pem" with
        | Except.error err =>
          { stdout := [], exit := Exit.fatal err, world := w, client := none }
        | Except.ok caCert =>
          match setStep env w caCert with
          | (CmdResult.exited msg, c2, w2) =>
            { stdout := [], exit := Exit.fatal msg, world := w2,
              client := some (c2,
                [Call.NewClient (poolOptions env.identity (caCertPoolOf env.decode caCert)),
                 Call.Set "key" "value" 0]) }
          | (CmdResult.err e, c2, w2) =>
            { stdout := [], exit := Exit.fatal e, world := w2,
              client := some (c2,
                [Call.NewClient (poolOptions env.identity (caCertPoolOf env.decode caCert)),
                 Call.Set "key" "value" 0]) }
          | (CmdResult.ok (), _, _) =>
            match getStep env w caCert with
            | (CmdResult.exited msg, c3, w3) =>
              { stdout := [], exit := Exit.fatal msg, world := w3,
                client := some (c3,
                  [Call.NewClient (poolOptions env.identity (caCertPoolOf env.decode caCert)),
                   Call.Set "key" "value" 0, Call.Get "key"]) }
            | (CmdResult.err e, c3, w3) =>
              { stdout := [], exit := Exit.fatal e, world := w3,
                client := some (c3,
                  [Call.NewClient (poolOptions env.identity (caCertPoolOf env.decode caCert)),
                   Call.Set "key" "value" 0, Call.Get "key"]) }
            | (CmdResult.ok val, c3, w3) =>
              { stdout := ["Got the value for key: key, which is " ++ val ++ " \n"],
                exit := Exit.ok, world := w3,
                client := some (c3,
                  [Call.NewClient (poolOptions env.identity (caCertPoolOf env.decode caCert)),
                   Call.Set "key" "value" 0, Call.Get "key"]) } := by
  cases h : env.ReadFile "server-ca.pem" with
  | error err => exact main_read_error (recordingEnv env) w err h
  | ok caCert =>
    have h1 : (recordingEnv env).ReadFile "server-ca.pem" = Except.ok caCert := h
    have hsr := setStep_recording env w caCert
    have hgr := getStep_recording env w caCert
    simp only
    rcases hs : setStep env w caCert with ⟨r, c2, w2⟩
    rw [hs] at hsr
    cases r with
    | err e => rw [main_set_err (recordingEnv env) w caCert e _ w2 h1 hsr]
    | exited e => rw [main_set_exited (recordingEnv env) w caCert e _ w2 h1 hsr]
    | ok u =>
      have hs1 : (setStep (recordingEnv env) w caCert).1 = CmdResult.ok () := by rw [hsr]
      rcases hg : getStep env w caCert with ⟨r3, c3, w3⟩
      rw [hg] at hgr
      cases r3 with
      | err e => rw [main_get_err (recordingEnv env) w caCert e _ w3 h1 hs1 hgr]
      | exited e => rw [main_get_exited (recordingEnv env) w caCert e _ w3 h1 hs1 hgr]
      | ok val => rw [main_get_ok (recordingEnv env) w caCert val _ w3 h1 hs1 hgr]

/-- The TLS fake verifies the server certificate: with an empty root pool and
verification switched on no command succeeds. -/
theorem tlsRedis_verifies (σ : Type) (serverCA : Certificate) (init : Store) :
    VerifiesServer (tlsRedis σ serverCA init) := by
  intro opts w tls h1 h2 h3 key value expiration
  simp [tlsRedis, accepts, h1, h2, h3, CmdResult.succeeded]

/-- When the pool append reports failure the root pool of `main` is empty. -/
theorem caCertPoolOf_of_append_false (decode : Bytes → List Certificate) (caCert : Bytes)
    (h : (AppendCertsFromPEM decode NewCertPool caCert).2 = false) :
    caCertPoolOf decode caCert = [] := by
  have hd : decode caCert = [] := by
    simpa [AppendCertsFromPEM] using h
  simp [caCertPoolOf, AppendCertsFromPEM, hd, NewCertPool]

/-- C3, as the code has it: a failed read of `server-ca.pem` is fatal with the
read error before the client is constructed and before any command.  When the
bytes read hold no parseable certificate, the failure reported by the pool
append is not examined: `main` constructs the client with the empty root pool
and issues `SET`; a library that verifies the server certificate against that
pool fails the `SET`, and the run is fatal there, with no `GET` and nothing
printed. -/
theorem main_trust_bundle_load {σ ρ : Type} (env : Env σ ρ) (w : World σ)
    (hv : VerifiesServer env.redis) :
    (∀ err, env.ReadFile "server-ca.pem" = Except.error err →
        main (recordingEnv env) w
          = { stdout := [], exit := Exit.fatal err, world := w, client := none }) ∧
      (∀ caCert, env.ReadFile "server-ca.pem" = Except.ok caCert →
        (AppendCertsFromPEM env.decode NewCertPool caCert).2 = false →
        (main (recordingEnv env) w).isFatal = true ∧
          (main (recordingEnv env) w).stdout = [] ∧
          (main (recordingEnv env) w).world = (setStep env w caCert).2.2 ∧
          (main (recordingEnv env) w).client
            = some ((setStep env w caCert).2.1,
                [Call.NewClient (poolOptions env.identity []), Call.Set "key" "value" 0])) := by
  refine ⟨fun err h => main_read_error (recordingEnv env) w err h, ?_⟩
  intro caCert h ha
  have hpool := caCertPoolOf_of_append_false env.decode caCert ha
  have hfail : (setStep env w caCert).1.succeeded = false := by
    simp only [setStep, newClientStep, hpool]
    exact hv (poolOptions env.identity []) w { RootCAs := some [] } rfl rfl rfl "key" "value" 0
  have hm := main_recorded env w
  simp only [h, hpool] at hm
  rcases hs : setStep env w caCert with ⟨r, c2, w2⟩
  rw [hs] at hfail hm
  cases r with
  | ok u => simp [CmdResult.succeeded] at hfail
  | err e => rw [hm]; simp [Run.isFatal]
  | exited e => rw [hm]; simp [Run.isFatal]

/-- C3 at the TLS fake with a trust bundle in which nothing can be parsed. -/
theorem main_trust_bundle_load_witness :
    (main (recordingEnv unparseableEnv) exampleWorld).isFatal = true ∧
      (main (recordingEnv unparseableEnv) exampleWorld).stdout = [] ∧
      (main (recordingEnv unparseableEnv) exampleWorld).world
        = (setStep unparseableEnv exampleWorld [45, 45, 45]).2.2 ∧
      (main (recordingEnv unparseableEnv) exampleWorld).client
        = some ((setStep unparseableEnv exampleWorld [45, 45, 45]).2.1,
            [Call.NewClient (poolOptions unparseableEnv.identity []),
             Call.Set "key" "value" 0]) :=
  (main_trust_bundle_load unparseableEnv exampleWorld
    (tlsRedis_verifies Script { raw := [7] } (fun _ => none))).2 [45, 45, 45] rfl rfl

/-- C3 fails as stated: with a readable trust bundle in which no certificate
can be parsed, the pool append reports failure, and yet `main` constructs the
client and issues `SET` before it ends, fatally, with the handshake error of
that `SET`. -/
theorem main_unparseable_bundle_reaches_set :
    unparseableEnv.ReadFile "server-ca.pem" = Except.ok [45, 45, 45] ∧
      (AppendCertsFromPEM unparseableEnv.decode NewCertPool [45, 45, 45]).2 = false ∧
      (main (recordingEnv unparseableEnv) exampleWorld).received
        = [Call.NewClient (poolOptions scripted []), Call.Set "key" "value" 0] ∧
      (main (recordingEnv unparseableEnv) exampleWorld).exit
        = Exit.fatal "x509: certificate signed by unknown authority" :=
  ⟨rfl, rfl, rfl, rfl⟩

/-- C4: against the fake key-value backend with any initial contents, once the
trust bundle is read, the library receives exactly `NewClient`, then
`SET key value` with expiration 0, then `GET key`; the `GET` returns exactly
`value`; the run writes the one line to standard output and ends normally,
leaving the map with `key` bound to `value`.  The printed value is the one the
`GET` returned: against any library whose `SET` succeeds and whose `GET`
returns `val`, the line reports `val`. -/
theorem main_set_get_round_trip {σ : Type} (ReadFile : String → Except String Bytes)
    (decode : Bytes → List Certificate) (identity : IdentityService σ) (init : Store)
    (w : World σ) (caCert : Bytes) (h : ReadFile "server-ca.pem" = Except.ok caCert) :
    main (recordingEnv (fakeEnv ReadFile decode identity init)) w
        = { stdout := ["Got the value for key: key, which is value \n"],
            exit := Exit.ok, world := w,
            client := some ((fun k => if k = "key" then some "value" else init k),
              [Call.NewClient (poolOptions identity (caCertPoolOf decode caCert)),
               Call.Set "key" "value" 0, Call.Get "key"]) } ∧
      (getStep (fakeEnv ReadFile decode identity init) w caCert).1 = CmdResult.ok "value" ∧
      (∀ (ρ : Type) (lib : RedisLib σ ρ) (val : String) (c3 : ρ) (w3 : World σ),
        (setStep (Env.mk ReadFile decode identity lib) w caCert).1 = CmdResult.ok () →
        getStep (Env.mk ReadFile decode identity lib) w caCert = (CmdResult.ok val, c3, w3) →
        main (Env.mk ReadFile decode identity lib) w
          = { stdout := ["Got the value for key: key, which is " ++ val ++ " \n"],
              exit := Exit.ok, world := w3, client := some c3 }) := by
  have hg : getStep (fakeEnv ReadFile decode identity init) w caCert
      = (CmdResult.ok "value", (fun k => if k = "key" then some "value" else init k), w) := by
    simp [getStep, setStep, newClientStep, fakeRedis, fakeEnv]
  have hs : setStep (fakeEnv ReadFile decode identity init) w caCert
      = (CmdResult.ok (), (fun k => if k = "key" then some "value" else init k), w) := by
    simp [setStep, newClientStep, fakeRedis, fakeEnv]
  have h1 : (fakeEnv ReadFile decode identity init).ReadFile "server-ca.pem"
      = Except.ok caCert := h
  refine ⟨?_, ?_, ?_⟩
  · have hm := main_recorded (fakeEnv ReadFile decode identity init) w
    simp only [h1, hs, hg] at hm
    rw [hm]
    rfl
  · rw [hg]
  · intro ρ lib val c3 w3 hset hget
    exact main_get_ok (Env.mk ReadFile decode identity lib) w caCert val c3 w3 h hset hget

/-- C4 at the example environment, whose store is empty at the start. -/
theorem main_set_get_round_trip_witness :
    main (recordingEnv exampleEnv) exampleWorld
        = { stdout := ["Got the value for key: key, which is value \n"],
            exit := Exit.ok, world := exampleWorld,
            client := some ((fun k => if k = "key" then some "value" else none),
              [Call.NewClient (poolOptions scripted [{ raw := [45, 45, 45] }]),
               Call.Set "key" "value" 0, Call.Get "key"]) } :=
  (main_set_get_round_trip bundleFile (fun b => [{ raw := b }]) scripted (fun _ => none)
    exampleWorld [45, 45, 45] rfl).1

/-- C5: the driver is fail-fast.  A failed read ends the run fatally with no
client constructed and the state untouched; a failed `SET` (an error returned,
or the process ending inside the call) ends it fatally in the state the `SET`
left, the library having received no `GET`; a failed `GET` ends it fatally in
the state the `GET` left; in none of these is anything printed.  The line is
printed, and the run ends normally, exactly when the read, the `SET` and the
`GET` all succeed. -/
theorem main_fail_fast {σ ρ : Type} (env : Env σ ρ) (w : World σ) :
    (∀ err, env.ReadFile "server-ca.pem" = Except.error err →
        main (recordingEnv env) w
          = { stdout := [], exit := Exit.fatal err, world := w, client := none }) ∧
      (∀ caCert e c2 w2, env.ReadFile "server-ca.pem" = Except.ok caCert →
        (setStep env w caCert = (CmdResult.err e, c2, w2) ∨
          setStep env w caCert = (CmdResult.exited e, c2, w2)) →
        main (recordingEnv env) w
          = { stdout := [], exit := Exit.fatal e, world := w2,
              client := some (c2,
                [Call.NewClient (poolOptions env.identity (caCertPoolOf env.decode caCert)),
                 Call.Set "key" "value" 0]) }) ∧
      (∀ caCert e c3 w3, env.ReadFile "server-ca.pem" = Except.ok caCert →
        (setStep env w caCert).1 = CmdResult.ok () →
        (getStep env w caCert = (CmdResult.err e, c3, w3) ∨
          getStep env w caCert = (CmdResult.exited e, c3, w3)) →
        main (recordingEnv env) w
          = { stdout := [], exit := Exit.fatal e, world := w3,
              client := some (c3,
                [Call.NewClient (poolOptions env.identity (caCertPoolOf env.decode caCert)),
                 Call.Set "key" "value" 0, Call.Get "key"]) }) ∧
      ((main env w).stdout ≠ [] ↔
        (readOk env = true ∧ (setStep env w (caCertOf env)).1.succeeded = true ∧
          (getStep env w (caCertOf env)).1.succeeded = true)) ∧
      ((main env w).isFatal = false ↔
        (readOk env = true ∧ (setStep env w (caCertOf env)).1.succeeded = true ∧
          (getStep env w (caCertOf env)).1.succeeded = true)) := by
  have hm := main_recorded env w
  refine ⟨?_, ?_, ?_, ?_⟩
  · intro err h
    exact main_read_error (recordingEnv env) w err h
  · intro caCert e c2 w2 h hs
    simp only [h] at hm
    rcases hs with hs | hs <;> simp only [hs] at hm <;> exact hm
  · intro caCert e c3 w3 h hs hg
    simp only [h] at hm
    rcases hset : setStep env w caCert with ⟨r, c2, w2⟩
    rw [hset] at hs hm
    simp only at hs
    subst hs
    rcases hg with hg | hg <;> simp only [hg] at hm <;> exact hm
  · cases h : env.ReadFile "server-ca.pem" with
    | error err =>
      rw [main_read_error env w err h]
      simp [readOk, h, Run.isFatal]
    | ok caCert =>
      have hc : caCertOf env = caCert := by simp [caCertOf, h]
      have hr : readOk env = true := by simp [readOk, h]
      rw [hc]
      rcases hs : setStep env w caCert with ⟨r, c2, w2⟩
      cases r with
      | err e =>
        rw [main_set_err env w caCert e c2 w2 h hs]
        simp [Run.isFatal, CmdResult.succeeded]
      | exited e =>
        rw [main_set_exited env w caCert e c2 w2 h hs]
        simp [Run.isFatal, CmdResult.succeeded]
      | ok u =>
        have hs1 : (setStep env w caCert).1 = CmdResult.ok () := by rw [hs]
        rcases hg : getStep env w caCert with ⟨r3, c3, w3⟩
        cases r3 with
        | err e =>
          rw [main_get_err env w caCert e c3 w3 h hs1 hg]
          simp [hr, Run.isFatal, CmdResult.succeeded]
        | exited e =>
          rw [main_get_exited env w caCert e c3 w3 h hs1 hg]
          simp [hr, Run.isFatal, CmdResult.succeeded]
        | ok val =>
          rw [main_get_ok env w caCert val c3 w3 h hs1 hg]
          simp [hr, Run.isFatal, CmdResult.succeeded]

/-- C6: building the pool configuration does not invoke the Token Provider.
The options store `retrieveTokenFunc` as the credentials callback and carry no
user name and no password; and when the library itself leaves the state
alone, an entire run of `main` leaves it as it was: the code of `main` makes no
call to the Token Provider and no request to the identity service. -/
theorem main_never_invokes_provider {σ ρ : Type} (env : Env σ ρ) (w : World σ)
    (hNew : ∀ o w1, (env.redis.NewClient o w1).2 = w1)
    (hSet : ∀ c k v x w1, (env.redis.Set c k v x w1).2.2 = w1)
    (hGet : ∀ c k w1, (env.redis.Get c k w1).2.2 = w1) :
    (main env w).world = w ∧
      ∀ pool, (poolOptions env.identity pool).CredentialsProvider
            = some (retrieveTokenFunc env.identity) ∧
        (poolOptions env.identity pool).Username = "" ∧
        (poolOptions env.identity pool).Password = "" := by
  refine ⟨?_, fun pool => ⟨rfl, rfl, rfl⟩⟩
  cases h : env.ReadFile "server-ca.pem" with
  | error err => rw [main_read_error env w err h]
  | ok caCert =>
    have hw1 : (newClientStep env w caCert).2 = w := hNew _ _
    have hw2 : (setStep env w caCert).2.2 = w := by
      rw [setStep, hSet, hw1]
    have hw3 : (getStep env w caCert).2.2 = w := by
      rw [getStep, hGet, hw2]
    rcases hs : setStep env w caCert with ⟨r, c2, w2⟩
    rw [hs] at hw2
    cases r with
    | err e => rw [main_set_err env w caCert e c2 w2 h hs]; exact hw2
    | exited e => rw [main_set_exited env w caCert e c2 w2 h hs]; exact hw2
    | ok u =>
      have hs1 : (setStep env w caCert).1 = CmdResult.ok () := by rw [hs]
      rcases hg : getStep env w caCert with ⟨r3, c3, w3⟩
      rw [hg] at hw3
      cases r3 with
      | err e => rw [main_get_err env w caCert e c3 w3 h hs1 hg]; exact hw3
      | exited e => rw [main_get_exited env w caCert e c3 w3 h hs1 hg]; exact hw3
      | ok val => rw [main_get_ok env w caCert val c3 w3 h hs1 hg]; exact hw3

/-- C6 at the example environment: after the whole run the scripted identity
service has received no request and still holds its token. -/
theorem main_never_invokes_provider_witness :
    (main exampleEnv exampleWorld).world = exampleWorld ∧
      ∀ pool, (poolOptions exampleEnv.identity pool).CredentialsProvider
            = some (retrieveTokenFunc exampleEnv.identity) ∧
        (poolOptions exampleEnv.identity pool).Username = "" ∧
        (poolOptions exampleEnv.identity pool).Password = "" :=
  main_never_invokes_provider exampleEnv exampleWorld
    (fun _ _ => rfl) (fun _ _ _ _ _ => rfl)
    (fun c k w1 => by
      show ((fakeRedis Script (fun _ => none)).Get c k w1).2.2 = w1
      simp only [fakeRedis]
      cases c k <;> rfl)

/-- C9: for every value of the flag variables and every readable trust bundle,
the options the library receives in `redis.NewClient`, the first call `main`
makes to it, are exactly: address `10.142.0.12:6379`, pool size 10, idle
timeout 60 seconds, minimum idle connections 1, credentials callback
`retrieveTokenFunc`, and a TLS configuration whose root pool is the one built
from the bytes of `server-ca.pem`, with verification not disabled; every other
option has its zero value. -/
theorem main_pool_configuration {σ ρ : Type} (env : Env σ ρ) (a : String) (d : Duration)
    (s : σ) (caCert : Bytes) (h : env.ReadFile "server-ca.pem" = Except.ok caCert) :
    (main (recordingEnv env) { svcAccount := a, lifetime := d, identity := s }).received.head?
      = some (Call.NewClient
          { Network := ""
            Addr := "10.142.0.12:6379"
            ClientName := ""
            Dialer := none
            OnConnect := none
            Username := ""
            Password := ""
            CredentialsProvider := some (retrieveTokenFunc env.identity)
            DB := 0
            MaxRetries := 0
            MinRetryBackoff := 0
            MaxRetryBackoff := 0
            DialTimeout := 0
            ReadTimeout := 0
            WriteTimeout := 0
            ContextTimeoutEnabled := false
            PoolFIFO := false
            PoolSize := 10
            PoolTimeout := 0
            MinIdleConns := 1
            MaxIdleConns := 0
            ConnMaxIdleTime := 60 * 1000000000
            ConnMaxLifetime := 0
            TLSConfig := some
              { RootCAs := some (AppendCertsFromPEM env.decode NewCertPool caCert).1
                ServerName := ""
                InsecureSkipVerify := false
                MinVersion := 0
                MaxVersion := 0 }
            Limiter := none }) := by
  have hm := main_recorded env { svcAccount := a, lifetime := d, identity := s }
  simp only [h] at hm
  rcases hs : setStep env { svcAccount := a, lifetime := d, identity := s } caCert
    with ⟨r, c2, w2⟩
  rw [hs] at hm
  cases r with
  | err e => rw [hm]; rfl
  | exited e => rw [hm]; rfl
  | ok u =>
    rcases hg : getStep env { svcAccount := a, lifetime := d, identity := s } caCert
      with ⟨r3, c3, w3⟩
    rw [hg] at hm
    cases r3 <;> (rw [hm]; rfl)

/-- C9 at the TLS environment whose bundle holds the issuer twice, with the
flag variables set to other values: the root pool holds the issuer once. -/
theorem main_pool_configuration_witness :
    (main (recordingEnv trustedEnv)
        { svcAccount := "other@example.com", lifetime := 5 * Second,
          identity := { answers := [], received := [] } }).received.head?
      = some (Call.NewClient
          { Addr := "10.142.0.12:6379"
            PoolSize := 10
            ConnMaxIdleTime := 60 * 1000000000
            MinIdleConns := 1
            CredentialsProvider := some (retrieveTokenFunc scripted)
            TLSConfig := some { RootCAs := some [{ raw := [7] }] } }) :=
  main_pool_configuration trustedEnv "other@example.com" (5 * Second)
    { answers := [], received := [] } [45, 45, 45] rfl

end MRC
